import Mathlib

/-!
Formalization of the technical-analysis and trade-tracking core of the
stockanalyzer repository, as a shallow embedding in Lean 4.

Conventions of the embedding:
* JavaScript numbers are modelled as rationals (`ℚ`); machine floating
  point is out of scope, arithmetic is exact.
* Calendar dates (the `date` field of a data point, `lastRefreshed`,
  the current day) are modelled as a count of days since 1970-01-01,
  taking the runtime timezone to be UTC.  Lexicographic comparison of
  ISO `YYYY-MM-DD` strings coincides with the numeric order of day
  counts, and `Date.getUTCDay`/`getDay` of a day count `d` is
  `(d + 4) % 7` (1970-01-01 was a Thursday).
* Timestamps in milliseconds (`Date.now()`, `new Date().getTime()`)
  are modelled as natural numbers of milliseconds since the epoch.
* `undefined`/absent optional values are `Option.none`; JavaScript
  truthiness of an optional number (`if (x)`) is `x` present and
  nonzero.
* Asynchronous fetches are modelled by passing the provider responses
  as explicit arguments; a `throw` is an `Except.error`.
-/

namespace StockAnalyzer

/-- Day of week of a day count (days since 1970-01-01, a Thursday):
0 = Sunday, …, 6 = Saturday, matching JavaScript `Date.getUTCDay`. -/
def dayOfWeek (d : ℕ) : ℕ := (d + 4) % 7

/-- Embedding of `getLatestTradingDay` from `src/services/alphaVantageApi.ts`
(lines 65–79): Saturday rolls back 1 day, Sunday 2 days, Monday 3 days
(to the preceding Friday); Tuesday–Friday stay unchanged. -/
def getLatestTradingDay (d : ℕ) : ℕ :=
  if dayOfWeek d = 6 then d - 1
  else if dayOfWeek d = 0 then d - 2
  else if dayOfWeek d = 1 then d - 3
  else d

/-- Embedding of `isDataStale` (lines 81–85): the last-refreshed calendar
date (time-of-day part already dropped) compared strictly against the
latest trading day for the current date `now`. -/
def isDataStale (lastRefreshed now : ℕ) : Bool :=
  decide (lastRefreshed < getLatestTradingDay now)

/-- Gregorian calendar date (year, month 1–12, day 1–31) of a day count,
standard civil-from-days algorithm; used to embed
`date.getFullYear()` / `date.getMonth()`. -/
def civilFromDays (z : ℕ) : ℕ × ℕ × ℕ :=
  let z' := z + 719468
  let era := z' / 146097
  let doe := z' % 146097
  let yoe := (doe - doe / 1460 + doe / 36524 - doe / 146096) / 365
  let y := yoe + era * 400
  let doy := doe - (365 * yoe + yoe / 4 - yoe / 100)
  let mp := (5 * doy + 2) / 153
  let dom := doy - (153 * mp + 2) / 5 + 1
  let m := if mp < 10 then mp + 3 else mp - 9
  (if m ≤ 2 then y + 1 else y, m, dom)

/-- Embedding of the grouping key `` `${date.getFullYear()}-${date.getMonth()}` ``
used by `generateMonthlyFromDaily`: two key strings are equal exactly when
the (year, month) pairs are equal. -/
def monthKey (d : ℕ) : ℕ × ℕ :=
  ((civilFromDays d).1, (civilFromDays d).2.1)

/-- Embedding of `ProcessedDataPoint`. -/
structure ProcessedDataPoint where
  date : ℕ
  «open» : ℚ
  high : ℚ
  low : ℚ
  close : ℚ
  volume : ℚ
  deriving DecidableEq

/-- JavaScript `Array.prototype.slice(-k)`: the last `k` elements for
`k > 0`; the whole array for `k = 0` (since `slice(-0)` is `slice(0)`). -/
def sliceLast (l : List α) (k : ℕ) : List α :=
  if k = 0 then l else l.drop (l.length - k)

/-! Trade ledger (`src/hooks/use-trade-tracking.ts`).  The React state and
`localStorage` write-through are modelled by explicit state passing: each
operation maps the current trade collection to the next one. -/

inductive OptionType where
  | call
  | put
  deriving DecidableEq

inductive PriceType where
  | bid
  | ask
  deriving DecidableEq

inductive RecommendationType where
  | callRecommended
  | putRecommended
  | noActionRecommended
  deriving DecidableEq

inductive TradeStatus where
  | pending
  | confirmed
  | closed
  deriving DecidableEq

structure TradeAction where
  strikePrice : ℚ
  optionType : OptionType
  targetPrice : ℚ
  priceType : PriceType
  expirationDate : String
  expirationReason : String
  deriving DecidableEq

structure Recommendation where
  recommendationType : RecommendationType
  action : Option TradeAction
  reasoning : String
  deriving DecidableEq

/-- Embedding of `TrackedTrade`; `confirmedAt`/`closedAt` are millisecond
timestamps. -/
structure TrackedTrade where
  id : String
  symbol : String
  recommendation : Recommendation
  confirmedAt : ℕ
  entryPrice : Option ℚ
  currentPrice : Option ℚ
  status : TradeStatus
  pnl : Option ℚ
  pnlPercentage : Option ℚ
  closedAt : Option ℕ
  deriving DecidableEq

/-- JavaScript truthiness of an optional number: present and nonzero. -/
def numTruthy : Option ℚ → Bool
  | none => false
  | some x => decide (x ≠ 0)

/-- Embedding of `confirmTrade` (lines 62–79): builds the new trade with id
`` `${symbol}-${Date.now()}` ``, status `confirmed` iff the entry price is
truthy, appends it, and returns its id together with the saved collection. -/
def confirmTrade (trades : List TrackedTrade) (symbol : String)
    (recommendation : Recommendation) (entryPrice : Option ℚ) (now : ℕ) :
    String × List TrackedTrade :=
  let newTrade : TrackedTrade :=
    { id := symbol ++ "-" ++ toString now
      symbol := symbol
      recommendation := recommendation
      confirmedAt := now
      entryPrice := entryPrice
      currentPrice := none
      status := if numTruthy entryPrice then .confirmed else .pending
      pnl := none
      pnlPercentage := none
      closedAt := none }
  (newTrade.id, trades ++ [newTrade])

/-- The per-trade body of `updateTradePrice` (lines 82–111): the function
mapped over the collection. -/
def updateTradeOne (tradeId : String) (currentPrice : ℚ) (entryPrice : Option ℚ)
    (trade : TrackedTrade) : TrackedTrade :=
  if trade.id = tradeId then
    let t1 : TrackedTrade :=
      { trade with
        currentPrice := some currentPrice
        status := if entryPrice.isSome then .confirmed else trade.status }
    let t2 : TrackedTrade :=
      match entryPrice with
      | some e => { t1 with entryPrice := some e }
      | none => t1
    match t2.entryPrice, t2.recommendation.action with
    | some e, some act =>
      if e ≠ 0 then
        let pnl : ℚ :=
          match act.optionType with
          | .call => max 0 (currentPrice - act.strikePrice) - e
          | .put => max 0 (act.strikePrice - currentPrice) - e
        { t2 with
          pnl := some pnl
          pnlPercentage := some (if 0 < e then pnl / e * 100 else 0) }
      else t2
    | _, _ => t2
  else trade

/-- Embedding of `updateTradePrice` (lines 81–114). -/
def updateTradePrice (trades : List TrackedTrade) (tradeId : String)
    (currentPrice : ℚ) (entryPrice : Option ℚ) : List TrackedTrade :=
  trades.map (updateTradeOne tradeId currentPrice entryPrice)

/-- The per-trade body of `closeTrade` (lines 117–126). -/
def closeTradeOne (tradeId : String) (now : ℕ) (trade : TrackedTrade) :
    TrackedTrade :=
  if trade.id = tradeId then
    { trade with status := .closed, closedAt := some now }
  else trade

/-- Embedding of `closeTrade` (lines 116–129): sets status `closed` and
`closedAt := new Date()` on the matching trade, unconditionally. -/
def closeTrade (trades : List TrackedTrade) (tradeId : String) (now : ℕ) :
    List TrackedTrade :=
  trades.map (closeTradeOne tradeId now)

/-! Indicator engine (`src/services/alphaVantageApi.ts`, lines 360–505). -/

/-- The consecutive close-to-close changes examined by `calculateRSI`:
`prices[i].close − prices[i−1].close` for `i = 1, …` over the trailing
`data.slice(-period - 1)` window. -/
def rsiChanges (data : List ProcessedDataPoint) (period : ℕ) : List ℚ :=
  let prices := sliceLast data (period + 1)
  (prices.zip prices.tail).map (fun q => q.2.close - q.1.close)

/-- `avgGain` of `calculateRSI`: the positive changes summed (`gains`),
divided by `period`. -/
def rsiAvgGain (data : List ProcessedDataPoint) (period : ℕ) : ℚ :=
  ((rsiChanges data period).map (fun c => if 0 < c then c else 0)).sum / period

/-- `avgLoss` of `calculateRSI`: the absolute values of the non-positive
changes summed (`losses`), divided by `period`. -/
def rsiAvgLoss (data : List ProcessedDataPoint) (period : ℕ) : ℚ :=
  ((rsiChanges data period).map (fun c => if 0 < c then 0 else -c)).sum / period

/-- Embedding of `calculateRSI` (lines 360–383): 50 on insufficient data,
100 when the average loss is zero, Wilder ratio otherwise. -/
def calculateRSI (data : List ProcessedDataPoint) (period : ℕ) : ℚ :=
  if data.length < period + 1 then 50
  else
    let avgGain := rsiAvgGain data period
    let avgLoss := rsiAvgLoss data period
    if avgLoss = 0 then 100
    else 100 - 100 / (1 + avgGain / avgLoss)

/-- Embedding of `calculateSMA` (lines 385–391): mean of the last `period`
closes; degrades to `data[data.length - 1]?.close || 0` when shorter. -/
def calculateSMA (data : List ProcessedDataPoint) (period : ℕ) : ℚ :=
  if data.length < period then (data.getLast?.map ProcessedDataPoint.close).getD 0
  else ((sliceLast data period).map ProcessedDataPoint.close).sum / period

/-- Embedding of `calculateEMA` (lines 414–425): seed is the SMA of the
first `period` closes, then the recurrence `ema = close·k + ema·(1 − k)`
with `k = 2/(period + 1)` over the remaining closes. -/
def calculateEMA (data : List ProcessedDataPoint) (period : ℕ) : ℚ :=
  if data.length < period then (data.getLast?.map ProcessedDataPoint.close).getD 0
  else
    let k : ℚ := 2 / (period + 1)
    let seed := ((data.take period).map ProcessedDataPoint.close).sum / period
    ((data.drop period).map ProcessedDataPoint.close).foldl
      (fun ema c => c * k + ema * (1 - k)) seed

/-- The loop body of `calculateOBV` from index 1 on: `prev` is the previous
point, `acc` the previous on-balance-volume value. -/
def calculateOBVGo (prev : ProcessedDataPoint) (acc : ℚ) :
    List ProcessedDataPoint → List ℚ
  | [] => []
  | p :: rest =>
    let next : ℚ :=
      if prev.close < p.close then acc + p.volume
      else if p.close < prev.close then acc - p.volume
      else acc
    next :: calculateOBVGo p next rest

/-- Embedding of `calculateOBV` (lines 472–484): the array is seeded with
`[0]` before the loop, so the empty input yields `[0]`. -/
def calculateOBV : List ProcessedDataPoint → List ℚ
  | [] => [0]
  | p :: rest => 0 :: calculateOBVGo p 0 rest

/-! Weekly/monthly derivation from daily data
(`src/services/alphaVantageApi.ts`, lines 291–358). -/

/-- `Math.max(x₀, x₁, …)` over a non-empty argument list `x₀ :: l`. -/
def maxOf (a : ℚ) (l : List ℚ) : ℚ := l.foldl max a

/-- `Math.min(x₀, x₁, …)` over a non-empty argument list `x₀ :: l`. -/
def minOf (a : ℚ) (l : List ℚ) : ℚ := l.foldl min a

/-- The bucket-flushing step shared by `generateWeeklyFromDaily` and
`generateMonthlyFromDaily`: the accumulated bucket is `f :: acc` (`f` the
first pushed point), and the emitted point takes the last point's date,
the first open, `Math.max` of highs, `Math.min` of lows, the last close,
and the `reduce`-sum of volumes. -/
def bucketAgg (f : ProcessedDataPoint) (acc : List ProcessedDataPoint) :
    ProcessedDataPoint :=
  let cw := f :: acc
  { date := (cw.getLast?.getD f).date
    «open» := f.«open»
    high := maxOf f.high (acc.map ProcessedDataPoint.high)
    low := minOf f.low (acc.map ProcessedDataPoint.low)
    close := (cw.getLast?.getD f).close
    volume := (cw.map ProcessedDataPoint.volume).sum }

/-- Pushing a point onto the current (possibly empty) bucket accumulator,
kept as (first point, later points). -/
def pushPoint : Option (ProcessedDataPoint × List ProcessedDataPoint) →
    ProcessedDataPoint → ProcessedDataPoint × List ProcessedDataPoint
  | none, p => (p, [])
  | some (f, acc), p => (f, acc ++ [p])

/-- The points held by a bucket accumulator, in push order. -/
def toBucketList : Option (ProcessedDataPoint × List ProcessedDataPoint) →
    List ProcessedDataPoint
  | none => []
  | some (f, acc) => f :: acc

/-- The `forEach` loop of `generateWeeklyFromDaily`: each point joins the
current week, which is flushed after a Friday point (`getDay() === 5`) or
at the last index. -/
def weeklyGo : Option (ProcessedDataPoint × List ProcessedDataPoint) →
    List ProcessedDataPoint → List ProcessedDataPoint
  | _, [] => []
  | cur, p :: rest =>
    let fa := pushPoint cur p
    if dayOfWeek p.date = 5 ∨ rest = [] then
      bucketAgg fa.1 fa.2 :: weeklyGo none rest
    else
      weeklyGo (some fa) rest

/-- Embedding of `generateWeeklyFromDaily` (lines 291–317). -/
def generateWeeklyFromDaily (dailyData : List ProcessedDataPoint) :
    List ProcessedDataPoint :=
  weeklyGo none dailyData

/-- The loop of `generateMonthlyFromDaily`: a bucket is flushed when the
`year-month` key changes, and the final bucket is flushed after the
loop. -/
def monthlyGo : Option (ProcessedDataPoint × List ProcessedDataPoint) →
    List ProcessedDataPoint → List ProcessedDataPoint
  | none, [] => []
  | some (f, acc), [] => [bucketAgg f acc]
  | none, p :: rest => monthlyGo (some (p, [])) rest
  | some (f, acc), p :: rest =>
    if monthKey p.date = monthKey f.date then
      monthlyGo (some (f, acc ++ [p])) rest
    else
      bucketAgg f acc :: monthlyGo (some (p, [])) rest

/-- Embedding of `generateMonthlyFromDaily` (lines 319–358). -/
def generateMonthlyFromDaily (dailyData : List ProcessedDataPoint) :
    List ProcessedDataPoint :=
  monthlyGo none dailyData

/-- The aggregation rule stated in the spec's own words, for comparison
with the source's bucket computation: open = first point's open,
high = max of highs, low = min of lows, close = last point's close,
volume = sum of volumes (junk defaults on the empty bucket, which never
occurs). -/
def aggSpecBucket (b : List ProcessedDataPoint) : ProcessedDataPoint :=
  { date := (b.getLast?.map ProcessedDataPoint.date).getD 0
    «open» := (b.head?.map ProcessedDataPoint.«open»).getD 0
    high := ((b.map ProcessedDataPoint.high).max?).getD 0
    low := ((b.map ProcessedDataPoint.low).min?).getD 0
    close := (b.getLast?.map ProcessedDataPoint.close).getD 0
    volume := (b.map ProcessedDataPoint.volume).sum }

/-- The weekly bucketization itself (same traversal as `weeklyGo`, but
collecting each flushed bucket as a list of points instead of
aggregating it). -/
def chunkWeeksGo : Option (ProcessedDataPoint × List ProcessedDataPoint) →
    List ProcessedDataPoint → List (List ProcessedDataPoint)
  | _, [] => []
  | cur, p :: rest =>
    let fa := pushPoint cur p
    if dayOfWeek p.date = 5 ∨ rest = [] then
      (fa.1 :: fa.2) :: chunkWeeksGo none rest
    else
      chunkWeeksGo (some fa) rest

/-- The Friday-terminated (or final-remaining) buckets of a daily series. -/
def chunkWeeks (dailyData : List ProcessedDataPoint) :
    List (List ProcessedDataPoint) :=
  chunkWeeksGo none dailyData

/-- The monthly bucketization itself (same traversal as `monthlyGo`). -/
def chunkMonthsGo : Option (ProcessedDataPoint × List ProcessedDataPoint) →
    List ProcessedDataPoint → List (List ProcessedDataPoint)
  | none, [] => []
  | some (f, acc), [] => [f :: acc]
  | none, p :: rest => chunkMonthsGo (some (p, [])) rest
  | some (f, acc), p :: rest =>
    if monthKey p.date = monthKey f.date then
      chunkMonthsGo (some (f, acc ++ [p])) rest
    else
      (f :: acc) :: chunkMonthsGo (some (p, [])) rest

/-- The calendar-month buckets of a daily series. -/
def chunkMonths (dailyData : List ProcessedDataPoint) :
    List (List ProcessedDataPoint) :=
  chunkMonthsGo none dailyData

/-- Total volume of a series. -/
def volSum (l : List ProcessedDataPoint) : ℚ :=
  (l.map ProcessedDataPoint.volume).sum

/-! Retrieval with fallback (`src/services/alphaVantageApi.ts`,
lines 87–289).  The HTTP responses are passed in as explicit arguments;
a provider series is modelled already parsed (the `parseFloat` of the
string fields is the boundary codec), and a thrown error is
`Except.error` carrying the message. -/

/-- A fetched series together with the provider's last-refreshed date. -/
structure FetchedSeries where
  data : List ProcessedDataPoint
  lastRefreshed : ℕ
  deriving DecidableEq

/-- Embedding of `MultiTimeframeData`. -/
structure MultiTimeframeData where
  day : List ProcessedDataPoint
  week : List ProcessedDataPoint
  month : List ProcessedDataPoint
  threeMonth : List ProcessedDataPoint
  sixMonth : List ProcessedDataPoint
  year : List ProcessedDataPoint
  deriving DecidableEq

/-- Embedding of `QuoteStatus`. -/
structure QuoteStatus where
  lastRefreshed : ℕ
  isStale : Bool
  deriving DecidableEq

/-- An Alpha Vantage response: optional `Error Message`, optional rate-limit
`Note`, the optional time-series mapping (absent when the key is missing),
and the `Meta Data` last-refreshed date. -/
structure AVResponse where
  errorMessage : Option String
  note : Option String
  series : Option (List ProcessedDataPoint)
  lastRefreshed : Option ℕ
  deriving DecidableEq

/-- Embedding of `processTimeSeriesData` (lines 172–183): the entries,
already parsed, sorted ascending by date. -/
def processTimeSeriesData (entries : List ProcessedDataPoint) :
    List ProcessedDataPoint :=
  entries.mergeSort (fun a b => a.date ≤ b.date)

/-- Embedding of `fetchDailyData` (lines 87–112): an `Error Message`, a
rate-limit `Note`, or a missing series each throw; otherwise the processed
series is returned with `Meta Data`'s last-refreshed date (`|| ''`,
i.e. day 0, when absent). -/
def fetchDailyData (r : AVResponse) : Except String FetchedSeries :=
  if r.errorMessage.isSome then
    .error "Alpha Vantage API Error"
  else if r.note.isSome then
    .error "API rate limit exceeded. Please wait or upgrade your Alpha Vantage API key."
  else
    match r.series with
    | none => .error "Failed to fetch daily data - please check the stock symbol and try again."
    | some ts =>
      .ok { data := processTimeSeriesData ts, lastRefreshed := r.lastRefreshed.getD 0 }

/-- Embedding of `fetchWeeklyData` (lines 114–134). -/
def fetchWeeklyData (r : AVResponse) : Except String (List ProcessedDataPoint) :=
  if r.errorMessage.isSome then
    .error "Alpha Vantage API Error"
  else if r.note.isSome then
    .error "API rate limit exceeded. Please wait or upgrade your Alpha Vantage API key."
  else
    match r.series with
    | none => .error "Failed to fetch weekly data - please check the stock symbol and try again."
    | some ts => .ok (processTimeSeriesData ts)

/-- Embedding of `fetchMonthlyData` (lines 136–156). -/
def fetchMonthlyData (r : AVResponse) : Except String (List ProcessedDataPoint) :=
  if r.errorMessage.isSome then
    .error "Alpha Vantage API Error"
  else if r.note.isSome then
    .error "API rate limit exceeded. Please wait or upgrade your Alpha Vantage API key."
  else
    match r.series with
    | none => .error "Failed to fetch monthly data - please check the stock symbol and try again."
    | some ts => .ok (processTimeSeriesData ts)

/-- One entry of the Yahoo chart arrays: a unix-second timestamp and the
parallel quote fields, each possibly null. -/
structure YahooPoint where
  ts : ℕ
  «open» : Option ℚ
  high : Option ℚ
  low : Option ℚ
  close : Option ℚ
  volume : Option ℚ
  deriving DecidableEq

/-- The per-entry mapping of `fetchYahooFinanceData`: the date is the UTC
calendar day of the timestamp and each null field defaults to 0
(`quotes.x[i] || 0`). -/
def yahooToPoint (y : YahooPoint) : ProcessedDataPoint :=
  { date := y.ts / 86400
    «open» := y.«open».getD 0
    high := y.high.getD 0
    low := y.low.getD 0
    close := y.close.getD 0
    volume := y.volume.getD 0 }

/-- Embedding of `fetchYahooFinanceData` (lines 185–217): a missing
timestamp array throws, an empty one throws while building the result
(`toISOString` on an invalid date), and otherwise the mapped points with
non-positive closes discarded are returned with the last timestamp's
calendar day as the refresh date. -/
def fetchYahooFinanceData (raw : Option (List YahooPoint)) :
    Except String FetchedSeries :=
  match raw with
  | none => .error "Failed to fetch data from Yahoo Finance via CORS proxy"
  | some [] => .error "Failed to fetch data from Yahoo Finance via CORS proxy"
  | some pts =>
    .ok { data := (pts.map yahooToPoint).filter (fun p => 0 < p.close)
          lastRefreshed := (pts.getLast?.map (fun y => y.ts / 86400)).getD 0 }

/-- Whether an `Except` value is a success. -/
def exceptOk : Except String α → Bool
  | .ok _ => true
  | .error _ => false

/-- The filter `new Date(d.date) >= now − days·86400000` applied by the
windowed timeframes (comparison in milliseconds). -/
def filterWindow (data : List ProcessedDataPoint) (nowMs days : ℕ) :
    List ProcessedDataPoint :=
  data.filter (fun p => (nowMs : ℤ) - days * 86400000 ≤ (p.date : ℤ) * 86400000)

/-- The bundle built on the primary (Alpha Vantage) path
(lines 234–241). -/
def avBundle (daily : FetchedSeries) (weekly monthly : List ProcessedDataPoint)
    (nowMs : ℕ) : MultiTimeframeData :=
  { day := sliceLast daily.data 30
    week := sliceLast weekly 12
    month := sliceLast monthly 12
    threeMonth := filterWindow daily.data nowMs 90
    sixMonth := filterWindow daily.data nowMs 180
    year := filterWindow daily.data nowMs 365 }

/-- The bundle built on the Yahoo fallback path (lines 265–275): weekly and
monthly series are derived from the daily data by bucketing. -/
def yahooBundle (yahoo : FetchedSeries) (nowMs : ℕ) : MultiTimeframeData :=
  { day := sliceLast yahoo.data 30
    week := sliceLast (generateWeeklyFromDaily yahoo.data) 12
    month := sliceLast (generateMonthlyFromDaily yahoo.data) 12
    threeMonth := filterWindow yahoo.data nowMs 90
    sixMonth := filterWindow yahoo.data nowMs 180
    year := filterWindow yahoo.data nowMs 365 }

/-- The inner `try`/`catch` of `getMultiTimeframeData` (lines 250–288): the
fallback provider's failure, or a fallback series with zero points, ends
in the final error; otherwise the Yahoo-derived bundle is returned. -/
def fallbackResult (yahooRaw : Option (List YahooPoint)) (nowMs : ℕ) :
    Except String (MultiTimeframeData × QuoteStatus) :=
  match fetchYahooFinanceData yahooRaw with
  | .error _ =>
    .error "Unable to fetch stock data from any source. Please check the symbol and try again."
  | .ok y =>
    if y.data.length = 0 then
      .error "Unable to fetch stock data from any source. Please check the symbol and try again."
    else
      .ok (yahooBundle y nowMs,
        { lastRefreshed := y.lastRefreshed
          isStale := isDataStale y.lastRefreshed (nowMs / 86400000) })

/-- Embedding of `getMultiTimeframeData` (lines 219–289): the three primary
requests are combined only when all succeed; any failure of the
`Promise.all` enters the fallback path. -/
def getMultiTimeframeData (daily weekly monthly : AVResponse)
    (yahooRaw : Option (List YahooPoint)) (nowMs : ℕ) :
    Except String (MultiTimeframeData × QuoteStatus) :=
  match fetchDailyData daily, fetchWeeklyData weekly, fetchMonthlyData monthly with
  | .ok d, .ok w, .ok m =>
    .ok (avBundle d w m nowMs,
      { lastRefreshed := d.lastRefreshed
        isStale := isDataStale d.lastRefreshed (nowMs / 86400000) })
  | _, _, _ => fallbackResult yahooRaw nowMs

/-! Concrete example inputs used by witnesses and counterexamples. -/

/-- A flat OHLCV point: all four prices equal to `c`, volume 1. -/
def mkPt (d : ℕ) (c : ℚ) : ProcessedDataPoint :=
  { date := d, «open» := c, high := c, low := c, close := c, volume := 1 }

/-- A rate-limited Alpha Vantage response (a `Note` and no series). -/
def rateLimitedResp : AVResponse :=
  { errorMessage := none
    note := some "Thank you for using Alpha Vantage! Please visit premium if you would like higher limits."
    series := none
    lastRefreshed := none }

/-- A single valid Yahoo entry at the epoch (1970-01-01), close 5. -/
def epochYp : YahooPoint :=
  { ts := 0, «open» := some 5, high := some 6, low := some 4,
    close := some 5, volume := some 100 }

/-- A current time of day 400 (in milliseconds), far past the epoch. -/
def day400Ms : ℕ := 86400000 * 400

/-- Fifteen daily points, enough for RSI at the default period 14. -/
def rsiData : List ProcessedDataPoint :=
  [mkPt 0 10, mkPt 1 11, mkPt 2 10, mkPt 3 12, mkPt 4 13,
   mkPt 5 12, mkPt 6 14, mkPt 7 13, mkPt 8 15, mkPt 9 16,
   mkPt 10 15, mkPt 11 17, mkPt 12 18, mkPt 13 17, mkPt 14 19]

/-- A recommendation carrying a call action at strike 100. -/
def callRec : Recommendation :=
  { recommendationType := .callRecommended
    action := some
      { strikePrice := 100
        optionType := .call
        targetPrice := 5
        priceType := .ask
        expirationDate := "2025-01-17"
        expirationReason := "weekly expiry" }
    reasoning := "bullish setup" }

/-- A recommendation carrying a put action at strike 100. -/
def putRec : Recommendation :=
  { recommendationType := .putRecommended
    action := some
      { strikePrice := 100
        optionType := .put
        targetPrice := 5
        priceType := .bid
        expirationDate := "2025-01-17"
        expirationReason := "weekly expiry" }
    reasoning := "bearish setup" }

/-- A tracked trade with a call action, entry price 2.00. -/
def exCallTrade : TrackedTrade :=
  { id := "AAPL-1000"
    symbol := "AAPL"
    recommendation := callRec
    confirmedAt := 1000
    entryPrice := some 2
    currentPrice := none
    status := .confirmed
    pnl := none
    pnlPercentage := none
    closedAt := none }

/-- A tracked trade with a put action, entry price 2.00. -/
def exPutTrade : TrackedTrade :=
  { exCallTrade with id := "MSFT-1000", symbol := "MSFT", recommendation := putRec }

/-- A tracked trade with a call action whose entry price is 0. -/
def exZeroEntryTrade : TrackedTrade :=
  { exCallTrade with id := "NVDA-1000", symbol := "NVDA", entryPrice := some 0 }

/-- An already-closed trade with `closedAt = 5000`. -/
def exClosedTrade : TrackedTrade :=
  { exCallTrade with
    id := "TSLA-1000"
    symbol := "TSLA"
    status := .closed
    closedAt := some 5000 }

end StockAnalyzer

namespace StockAnalyzer

/-- Helper: the mapped trade is unchanged when its id differs. -/
theorem updateTradeOne_id_ne (tradeId : String) (currentPrice : ℚ)
    (entryPrice : Option ℚ) (t : TrackedTrade) (h : t.id ≠ tradeId) :
    updateTradeOne tradeId currentPrice entryPrice t = t := by
  simp [updateTradeOne, h]

/-- Helper: the mapped trade is unchanged when its id differs. -/
theorem closeTradeOne_id_ne (tradeId : String) (now : ℕ)
    (t : TrackedTrade) (h : t.id ≠ tradeId) :
    closeTradeOne tradeId now t = t := by
  simp [closeTradeOne, h]

/-- Helper: the summed gains are non-negative. -/
theorem rsiAvgGain_nonneg (data : List ProcessedDataPoint) (period : ℕ) :
    0 ≤ rsiAvgGain data period := by
  refine div_nonneg (List.sum_nonneg ?_) (by positivity)
  intro x hx
  rw [List.mem_map] at hx
  obtain ⟨c, _, hc⟩ := hx
  subst hc
  by_cases h : 0 < c <;> simp [h, le_of_lt]

/-- Helper: the summed losses are non-negative. -/
theorem rsiAvgLoss_nonneg (data : List ProcessedDataPoint) (period : ℕ) :
    0 ≤ rsiAvgLoss data period := by
  refine div_nonneg (List.sum_nonneg ?_) (by positivity)
  intro x hx
  rw [List.mem_map] at hx
  obtain ⟨c, _, hc⟩ := hx
  subst hc
  by_cases h : 0 < c
  · simp [h]
  · simp only [h, if_false]
    linarith

/-- C5: `calculateRSI` returns 50 on fewer than `period + 1` points; with
at least `period + 1` points (15 at the default period 14) it lies in
`[0, 100]`, equals 100 when the average loss over the trailing window is
zero, and otherwise equals `100 − 100/(1 + avgGain/avgLoss)` over the
trailing `period + 1` closes. -/
theorem C5_theorem (data : List ProcessedDataPoint) (period : ℕ)
    (_hp : 0 < period) :
    (data.length < period + 1 → calculateRSI data period = 50) ∧
    (period + 1 ≤ data.length →
      0 ≤ calculateRSI data period ∧ calculateRSI data period ≤ 100 ∧
      (rsiAvgLoss data period = 0 → calculateRSI data period = 100) ∧
      (rsiAvgLoss data period ≠ 0 →
        calculateRSI data period =
          100 - 100 / (1 + rsiAvgGain data period / rsiAvgLoss data period))) := by
  constructor
  · intro h
    simp [calculateRSI, h]
  · intro h
    have hnl : ¬ data.length < period + 1 := not_lt.2 h
    by_cases hz : rsiAvgLoss data period = 0
    · refine ⟨?_, ?_, fun _ => ?_, fun hc => absurd hz hc⟩ <;>
        simp [calculateRSI, hnl, hz]
    · have hg := rsiAvgGain_nonneg data period
      have hl := rsiAvgLoss_nonneg data period
      have hrs : 0 ≤ rsiAvgGain data period / rsiAvgLoss data period :=
        div_nonneg hg hl
      have h1 : (1 : ℚ) ≤ 1 + rsiAvgGain data period / rsiAvgLoss data period := by
        linarith
      have hle : (100 : ℚ) / (1 + rsiAvgGain data period / rsiAvgLoss data period)
          ≤ 100 := div_le_self (by norm_num) h1
      have hge : (0 : ℚ) ≤ 100 / (1 + rsiAvgGain data period / rsiAvgLoss data period) :=
        div_nonneg (by norm_num) (by linarith)
      refine ⟨?_, ?_, fun hc => absurd hc hz, fun _ => ?_⟩ <;>
        simp only [calculateRSI, hnl, if_false, hz, ite_false] <;> linarith

/-- C5 witness: the theorem at a concrete 15-point series and the default
period 14. -/
theorem C5_witness :
    0 < 14 ∧
    ((rsiData.length < 14 + 1 → calculateRSI rsiData 14 = 50) ∧
     (14 + 1 ≤ rsiData.length →
       0 ≤ calculateRSI rsiData 14 ∧ calculateRSI rsiData 14 ≤ 100 ∧
       (rsiAvgLoss rsiData 14 = 0 → calculateRSI rsiData 14 = 100) ∧
       (rsiAvgLoss rsiData 14 ≠ 0 →
         calculateRSI rsiData 14 =
           100 - 100 / (1 + rsiAvgGain rsiData 14 / rsiAvgLoss rsiData 14)))) :=
  ⟨by decide, C5_theorem rsiData 14 (by decide)⟩

/-- C9: `calculateSMA` and `calculateEMA` are total functions of the series
(no exception path exists in the embedding): on a non-empty series shorter
than the period both return the last close, and on the empty series both
return 0 via the fallback `data[data.length - 1]?.close || 0`. -/
theorem C9_theorem (period : ℕ) (hp : 0 < period)
    (data : List ProcessedDataPoint) (p : ProcessedDataPoint)
    (hlast : data.getLast? = some p) (hshort : data.length < period) :
    calculateSMA data period = p.close ∧
    calculateEMA data period = p.close ∧
    calculateSMA [] period = 0 ∧
    calculateEMA [] period = 0 := by
  refine ⟨?_, ?_, ?_, ?_⟩ <;>
    simp [calculateSMA, calculateEMA, hshort, hlast, hp]

/-- C9 witness: the theorem at the one-point series `[mkPt 0 7]` (close 7)
and period 5. -/
theorem C9_witness :
    (0 < 5 ∧ [mkPt 0 7].getLast? = some (mkPt 0 7) ∧ [mkPt 0 7].length < 5) ∧
    calculateSMA [mkPt 0 7] 5 = (mkPt 0 7).close ∧
    calculateEMA [mkPt 0 7] 5 = (mkPt 0 7).close ∧
    calculateSMA [] 5 = 0 ∧
    calculateEMA [] 5 = 0 :=
  ⟨⟨by decide, by decide, by decide⟩,
    C9_theorem 5 (by decide) [mkPt 0 7] (mkPt 0 7) (by decide) (by decide)⟩

/-- Helper: the OBV loop emits one value per remaining input point. -/
theorem calculateOBVGo_length (l : List ProcessedDataPoint)
    (prev : ProcessedDataPoint) (acc : ℚ) :
    (calculateOBVGo prev acc l).length = l.length := by
  induction l generalizing prev acc with
  | nil => rfl
  | cons p rest ih => simp [calculateOBVGo, ih]

/-- C10: `calculateOBV` always starts at 0 and emits one value per input
point when the input is non-empty; on the empty series it returns the
one-element array `[0]` (length `max 1 (length input)` covers both). -/
theorem C10_theorem (data : List ProcessedDataPoint) :
    (calculateOBV data).head? = some 0 ∧
    (calculateOBV data).length = max 1 data.length ∧
    calculateOBV [] = [0] := by
  refine ⟨?_, ?_, rfl⟩ <;> cases data with
  | nil => rfl
  | cons p rest =>
    simp [calculateOBV, calculateOBVGo_length]

/-- Helper: a left fold of `max` equals the optional maximum seeded with
the initial value. -/
theorem foldl_max_getD (l : List ℚ) :
    ∀ a : ℚ, l.foldl max a = (l.max?).elim a (max a) := by
  induction l with
  | nil => intro a; rfl
  | cons x xs ih =>
    intro a
    rw [List.foldl_cons, ih (max a x), List.max?_cons]
    cases h : xs.max? <;> simp [h, Option.elim, max_assoc]

/-- Helper: a left fold of `min` equals the optional minimum seeded with
the initial value. -/
theorem foldl_min_getD (l : List ℚ) :
    ∀ a : ℚ, l.foldl min a = (l.min?).elim a (min a) := by
  induction l with
  | nil => intro a; rfl
  | cons x xs ih =>
    intro a
    rw [List.foldl_cons, ih (min a x), List.min?_cons]
    cases h : xs.min? <;> simp [h, Option.elim, min_assoc]

/-- Helper: the source's bucket aggregation coincides with the spec's
aggregation rule on the bucket's point list. -/
theorem bucketAgg_eq (f : ProcessedDataPoint) (acc : List ProcessedDataPoint) :
    bucketAgg f acc = aggSpecBucket (f :: acc) := by
  simp [bucketAgg, aggSpecBucket, maxOf, minOf, List.getLast?_cons,
    List.max?_cons, List.min?_cons, foldl_max_getD, foldl_min_getD]

/-- Helper: pushing a point appends it to the bucket's point list. -/
theorem pushPoint_toList (cur : Option (ProcessedDataPoint × List ProcessedDataPoint))
    (p : ProcessedDataPoint) :
    (pushPoint cur p).1 :: (pushPoint cur p).2 = toBucketList cur ++ [p] := by
  rcases cur with _ | ⟨f, acc⟩ <;> simp [pushPoint, toBucketList]

/-- Helper: the weekly loop is the aggregation map over the weekly
bucketization. -/
theorem weeklyGo_eq_map (l : List ProcessedDataPoint) :
    ∀ cur, weeklyGo cur l = (chunkWeeksGo cur l).map aggSpecBucket := by
  induction l with
  | nil => intro cur; rfl
  | cons p rest ih =>
    intro cur
    by_cases h : dayOfWeek p.date = 5 ∨ rest = [] <;>
      simp [weeklyGo, chunkWeeksGo, h, ih, bucketAgg_eq]

/-- Helper: the weekly bucketization of a non-empty input partitions the
pending bucket plus the input. -/
theorem chunkWeeksGo_flatten (l : List ProcessedDataPoint) :
    l ≠ [] → ∀ cur, (chunkWeeksGo cur l).flatten = toBucketList cur ++ l := by
  induction l with
  | nil => intro h; exact absurd rfl h
  | cons p rest ih =>
    intro _ cur
    rcases eq_or_ne rest [] with hr | hr
    · subst hr
      simp [chunkWeeksGo, pushPoint_toList]
    · by_cases h5 : dayOfWeek p.date = 5
      · have hfl := ih hr none
        simp only [chunkWeeksGo, h5, true_or, if_true, List.flatten_cons, hfl]
        simp [pushPoint_toList, toBucketList]
      · have hcond : ¬ (dayOfWeek p.date = 5 ∨ rest = []) := by
          simp [h5, hr]
        have hfl := ih hr (some (pushPoint cur p))
        simp only [chunkWeeksGo, hcond, if_false, hfl]
        rw [show toBucketList (some (pushPoint cur p)) =
              (pushPoint cur p).1 :: (pushPoint cur p).2 by rfl,
            pushPoint_toList]
        simp

/-- Helper: every weekly bucket is non-empty. -/
theorem chunkWeeksGo_mem_ne_nil (l : List ProcessedDataPoint) :
    ∀ cur b, b ∈ chunkWeeksGo cur l → b ≠ [] := by
  induction l with
  | nil => intro cur b hb; simp [chunkWeeksGo] at hb
  | cons p rest ih =>
    intro cur b hb
    by_cases h : dayOfWeek p.date = 5 ∨ rest = []
    · simp only [chunkWeeksGo, h, if_true, List.mem_cons] at hb
      rcases hb with hb | hb
      · subst hb; exact List.cons_ne_nil _ _
      · exact ih none b hb
    · simp only [chunkWeeksGo, h, if_false] at hb
      exact ih _ b hb

/-- Helper: the monthly loop is the aggregation map over the monthly
bucketization. -/
theorem monthlyGo_eq_map (l : List ProcessedDataPoint) :
    ∀ cur, monthlyGo cur l = (chunkMonthsGo cur l).map aggSpecBucket := by
  induction l with
  | nil =>
    intro cur
    rcases cur with _ | ⟨f, acc⟩ <;> simp [monthlyGo, chunkMonthsGo, bucketAgg_eq]
  | cons p rest ih =>
    intro cur
    rcases cur with _ | ⟨f, acc⟩
    · simpa [monthlyGo, chunkMonthsGo] using ih (some (p, []))
    · by_cases h : monthKey p.date = monthKey f.date <;>
        simp [monthlyGo, chunkMonthsGo, h, ih, bucketAgg_eq]

/-- Helper: the monthly bucketization partitions the pending bucket plus
the input. -/
theorem chunkMonthsGo_flatten (l : List ProcessedDataPoint) :
    ∀ cur, (chunkMonthsGo cur l).flatten = toBucketList cur ++ l := by
  induction l with
  | nil =>
    intro cur
    rcases cur with _ | ⟨f, acc⟩ <;> simp [chunkMonthsGo, toBucketList]
  | cons p rest ih =>
    intro cur
    rcases cur with _ | ⟨f, acc⟩
    · simpa [chunkMonthsGo, toBucketList] using ih (some (p, []))
    · by_cases h : monthKey p.date = monthKey f.date <;>
        simp [chunkMonthsGo, h, ih, toBucketList]

/-- Helper: every monthly bucket is non-empty. -/
theorem chunkMonthsGo_mem_ne_nil (l : List ProcessedDataPoint) :
    ∀ cur b, b ∈ chunkMonthsGo cur l → b ≠ [] := by
  induction l with
  | nil =>
    intro cur b hb
    rcases cur with _ | ⟨f, acc⟩ <;> simp [chunkMonthsGo] at hb
    subst hb; exact List.cons_ne_nil _ _
  | cons p rest ih =>
    intro cur b hb
    rcases cur with _ | ⟨f, acc⟩
    · exact ih _ b (by simpa [chunkMonthsGo] using hb)
    · by_cases h : monthKey p.date = monthKey f.date
      · exact ih _ b (by simpa [chunkMonthsGo, h] using hb)
      · simp only [chunkMonthsGo, h, if_false, List.mem_cons] at hb
        rcases hb with hb | hb
        · subst hb; exact List.cons_ne_nil _ _
        · exact ih _ b hb

/-- Helper: the weekly bucketization of a non-empty input is non-empty. -/
theorem chunkWeeksGo_ne_nil (l : List ProcessedDataPoint) (hl : l ≠ [])
    (cur : Option (ProcessedDataPoint × List ProcessedDataPoint)) :
    chunkWeeksGo cur l ≠ [] := by
  intro h
  have hfl := chunkWeeksGo_flatten l hl cur
  rw [h] at hfl
  simp only [List.flatten_nil] at hfl
  exact hl (List.append_eq_nil.mp hfl.symm).2

/-- Helper: every weekly bucket except the final one ends on a Friday
(`getDay() === 5`). -/
theorem chunkWeeksGo_dropLast_friday (l : List ProcessedDataPoint) :
    ∀ cur b, b ∈ (chunkWeeksGo cur l).dropLast →
      b.getLast?.map (fun p => dayOfWeek p.date) = some 5 := by
  induction l with
  | nil => intro cur b hb; simp [chunkWeeksGo] at hb
  | cons p rest ih =>
    intro cur b hb
    rcases eq_or_ne rest [] with hr | hr
    · subst hr
      simp [chunkWeeksGo] at hb
    · by_cases h5 : dayOfWeek p.date = 5
      · have hne : chunkWeeksGo none rest ≠ [] := chunkWeeksGo_ne_nil rest hr none
        simp only [chunkWeeksGo, h5, true_or, if_true] at hb
        rw [List.dropLast_cons_of_ne_nil hne] at hb
        rcases List.mem_cons.1 hb with hb | hb
        · subst hb
          rw [pushPoint_toList, List.getLast?_concat]
          simp [h5]
        · exact ih none b hb
      · have hcond : ¬ (dayOfWeek p.date = 5 ∨ rest = []) := by
          simp [h5, hr]
        simp only [chunkWeeksGo, hcond, if_false] at hb
        exact ih _ b hb

/-- Helper: all points of a monthly bucket share the year-month key,
given the pending bucket's invariant. -/
theorem chunkMonthsGo_key_const (l : List ProcessedDataPoint) :
    ∀ f acc, (∀ q ∈ acc, monthKey q.date = monthKey f.date) →
      ∀ b ∈ chunkMonthsGo (some (f, acc)) l,
        ∀ x ∈ b, ∀ y ∈ b, monthKey x.date = monthKey y.date := by
  induction l with
  | nil =>
    intro f acc hinv b hb x hx y hy
    simp only [chunkMonthsGo, List.mem_singleton] at hb
    subst hb
    have hkey : ∀ z ∈ f :: acc, monthKey z.date = monthKey f.date := by
      intro z hz
      rcases List.mem_cons.1 hz with hz | hz
      · rw [hz]
      · exact hinv z hz
    rw [hkey x hx, hkey y hy]
  | cons p rest ih =>
    intro f acc hinv b hb x hx y hy
    by_cases h : monthKey p.date = monthKey f.date
    · have hinv2 : ∀ q ∈ acc ++ [p], monthKey q.date = monthKey f.date := by
        intro q hq
        rcases List.mem_append.1 hq with hq | hq
        · exact hinv q hq
        · rw [List.mem_singleton.1 hq, h]
      simp only [chunkMonthsGo, h, if_true] at hb
      exact ih f (acc ++ [p]) hinv2 b hb x hx y hy
    · simp only [chunkMonthsGo, h, if_false, List.mem_cons] at hb
      rcases hb with hb | hb
      · subst hb
        have hkey : ∀ z ∈ f :: acc, monthKey z.date = monthKey f.date := by
          intro z hz
          rcases List.mem_cons.1 hz with hz | hz
          · rw [hz]
          · exact hinv z hz
        rw [hkey x hx, hkey y hy]
      · exact ih p [] (by simp) b hb x hx y hy

/-- Helper: all points of every monthly bucket share the year-month key. -/
theorem chunkMonths_key_const (dailyData : List ProcessedDataPoint) :
    ∀ b ∈ chunkMonths dailyData, ∀ x ∈ b, ∀ y ∈ b,
      monthKey x.date = monthKey y.date := by
  rcases dailyData with _ | ⟨p, rest⟩
  · intro b hb; simp [chunkMonths, chunkMonthsGo] at hb
  · exact chunkMonthsGo_key_const rest p [] (by simp)

/-- Helper: aggregating each bucket preserves the total volume of the
flattened buckets. -/
theorem volSum_map_aggSpec (bs : List (List ProcessedDataPoint)) :
    volSum (bs.map aggSpecBucket) = volSum bs.flatten := by
  induction bs with
  | nil => rfl
  | cons b bs ih =>
    simp only [volSum, List.map_cons, List.sum_cons, List.flatten_cons,
      List.map_append, List.sum_append] at ih ⊢
    rw [ih]
    rfl

/-- C4: the derived weekly and monthly series are exactly the spec's
aggregation rule (open = first, high = max of highs, low = min of lows,
close = last, volume = sum) mapped over a partition of the daily series
into non-empty consecutive buckets — every non-final weekly bucket ends
on a Friday and every monthly bucket lies within one calendar month —
and therefore the total volume of each derived series equals the total
daily volume exactly. -/
theorem C4_theorem (dailyData : List ProcessedDataPoint) :
    generateWeeklyFromDaily dailyData = (chunkWeeks dailyData).map aggSpecBucket ∧
    generateMonthlyFromDaily dailyData = (chunkMonths dailyData).map aggSpecBucket ∧
    (chunkWeeks dailyData).flatten = dailyData ∧
    (chunkMonths dailyData).flatten = dailyData ∧
    (∀ b ∈ chunkWeeks dailyData, b ≠ []) ∧
    (∀ b ∈ chunkMonths dailyData, b ≠ []) ∧
    (∀ b ∈ (chunkWeeks dailyData).dropLast,
      b.getLast?.map (fun p => dayOfWeek p.date) = some 5) ∧
    (∀ b ∈ chunkMonths dailyData, ∀ x ∈ b, ∀ y ∈ b,
      monthKey x.date = monthKey y.date) ∧
    volSum (generateWeeklyFromDaily dailyData) = volSum dailyData ∧
    volSum (generateMonthlyFromDaily dailyData) = volSum dailyData := by
  have hw : generateWeeklyFromDaily dailyData =
      (chunkWeeks dailyData).map aggSpecBucket := weeklyGo_eq_map dailyData none
  have hm : generateMonthlyFromDaily dailyData =
      (chunkMonths dailyData).map aggSpecBucket := monthlyGo_eq_map dailyData none
  have hwf : (chunkWeeks dailyData).flatten = dailyData := by
    rcases eq_or_ne dailyData [] with h | h
    · subst h; rfl
    · simpa [toBucketList] using chunkWeeksGo_flatten dailyData h none
  have hmf : (chunkMonths dailyData).flatten = dailyData := by
    simpa [toBucketList] using chunkMonthsGo_flatten dailyData none
  refine ⟨hw, hm, hwf, hmf,
    fun b hb => chunkWeeksGo_mem_ne_nil dailyData none b hb,
    fun b hb => chunkMonthsGo_mem_ne_nil dailyData none b hb,
    fun b hb => chunkWeeksGo_dropLast_friday dailyData none b hb,
    chunkMonths_key_const dailyData, ?_, ?_⟩
  · rw [hw, volSum_map_aggSpec, hwf]
  · rw [hm, volSum_map_aggSpec, hmf]

/-- C4 witness: the theorem at a concrete three-point series (a Friday
followed by two points of the next week, all in January 1970). -/
theorem C4_witness :
    generateWeeklyFromDaily [mkPt 1 10, mkPt 4 11, mkPt 7 12] =
      (chunkWeeks [mkPt 1 10, mkPt 4 11, mkPt 7 12]).map aggSpecBucket ∧
    generateMonthlyFromDaily [mkPt 1 10, mkPt 4 11, mkPt 7 12] =
      (chunkMonths [mkPt 1 10, mkPt 4 11, mkPt 7 12]).map aggSpecBucket ∧
    (chunkWeeks [mkPt 1 10, mkPt 4 11, mkPt 7 12]).flatten =
      [mkPt 1 10, mkPt 4 11, mkPt 7 12] ∧
    (chunkMonths [mkPt 1 10, mkPt 4 11, mkPt 7 12]).flatten =
      [mkPt 1 10, mkPt 4 11, mkPt 7 12] ∧
    (∀ b ∈ chunkWeeks [mkPt 1 10, mkPt 4 11, mkPt 7 12], b ≠ []) ∧
    (∀ b ∈ chunkMonths [mkPt 1 10, mkPt 4 11, mkPt 7 12], b ≠ []) ∧
    (∀ b ∈ (chunkWeeks [mkPt 1 10, mkPt 4 11, mkPt 7 12]).dropLast,
      b.getLast?.map (fun p => dayOfWeek p.date) = some 5) ∧
    (∀ b ∈ chunkMonths [mkPt 1 10, mkPt 4 11, mkPt 7 12], ∀ x ∈ b, ∀ y ∈ b,
      monthKey x.date = monthKey y.date) ∧
    volSum (generateWeeklyFromDaily [mkPt 1 10, mkPt 4 11, mkPt 7 12]) =
      volSum [mkPt 1 10, mkPt 4 11, mkPt 7 12] ∧
    volSum (generateMonthlyFromDaily [mkPt 1 10, mkPt 4 11, mkPt 7 12]) =
      volSum [mkPt 1 10, mkPt 4 11, mkPt 7 12] :=
  C4_theorem [mkPt 1 10, mkPt 4 11, mkPt 7 12]

/-- C2: `isStale` is true exactly when the last-refreshed calendar date is
strictly earlier than the most recently completed trading day.  Saturday
and Sunday map back to the preceding Friday (and Monday, whose session is
not yet complete, also maps back to Friday); in particular on any Monday,
a last-refreshed date of last Friday is not stale and one of two Fridays
ago is stale. -/
theorem C2_theorem (lastRefreshed now : ℕ) :
    (isDataStale lastRefreshed now = true ↔
      lastRefreshed < getLatestTradingDay now) ∧
    (dayOfWeek now = 6 →
      getLatestTradingDay now = now - 1 ∧ dayOfWeek (now - 1) = 5) ∧
    (dayOfWeek now = 0 →
      getLatestTradingDay now = now - 2 ∧ dayOfWeek (now - 2) = 5) ∧
    (dayOfWeek now = 1 →
      getLatestTradingDay now = now - 3 ∧ dayOfWeek (now - 3) = 5 ∧
      isDataStale (now - 3) now = false ∧ isDataStale (now - 10) now = true) ∧
    (2 ≤ dayOfWeek now → dayOfWeek now ≤ 5 → getLatestTradingDay now = now) := by
  refine ⟨decide_eq_true_iff, fun h6 => ⟨?_, ?_⟩, fun h0 => ⟨?_, ?_⟩,
    fun h1 => ?_, fun h2 h5 => ?_⟩
  · simp [getLatestTradingDay, h6]
  · unfold dayOfWeek at h6 ⊢; omega
  · simp [getLatestTradingDay, h0]
  · unfold dayOfWeek at h0 ⊢; omega
  · have hg : getLatestTradingDay now = now - 3 := by
      simp [getLatestTradingDay, h1]
    refine ⟨hg, ?_, ?_, ?_⟩
    · unfold dayOfWeek at h1 ⊢; omega
    · have hlt : ¬ (now - 3 < now - 3) := lt_irrefl _
      simp [isDataStale, hg, hlt]
    · have hlt : now - 10 < now - 3 := by
        unfold dayOfWeek at h1; omega
      simp [isDataStale, hg, hlt]
  · have hne : dayOfWeek now ≠ 6 ∧ dayOfWeek now ≠ 0 ∧ dayOfWeek now ≠ 1 := by
      omega
    simp [getLatestTradingDay, hne.1, hne.2.1, hne.2.2]

/-- C2 witness: day 4 (1970-01-05) is a Monday; last Friday is day 1
(not stale) and two Fridays back is day 4 − 10 (stale). -/
theorem C2_witness :
    dayOfWeek 4 = 1 ∧
    getLatestTradingDay 4 = 4 - 3 ∧ dayOfWeek (4 - 3) = 5 ∧
    isDataStale (4 - 3) 4 = false ∧ isDataStale (4 - 10) 4 = true :=
  ⟨by decide, (C2_theorem 0 4).2.2.2.1 (by decide)⟩

/-- Helper: `sliceLast` of a non-empty list with a nonzero count is
non-empty. -/
theorem sliceLast_ne_nil (l : List ProcessedDataPoint) (k : ℕ) (hk : k ≠ 0)
    (hl : l ≠ []) : sliceLast l k ≠ [] := by
  have h0 : 0 < l.length := List.length_pos.2 hl
  simp only [sliceLast, hk, if_false]
  rw [Ne, List.drop_eq_nil_iff, not_le]
  omega

/-- Helper: the weekly derivation of a non-empty daily series is
non-empty. -/
theorem generateWeeklyFromDaily_ne_nil (l : List ProcessedDataPoint)
    (hl : l ≠ []) : generateWeeklyFromDaily l ≠ [] := by
  have hfl := chunkWeeksGo_flatten l hl none
  rw [generateWeeklyFromDaily, weeklyGo_eq_map]
  intro h
  rw [List.map_eq_nil_iff] at h
  rw [h] at hfl
  simp [toBucketList] at hfl
  exact hl hfl

/-- Helper: the monthly loop with a pending bucket never returns an empty
list. -/
theorem monthlyGo_some_ne_nil (l : List ProcessedDataPoint) :
    ∀ f acc, monthlyGo (some (f, acc)) l ≠ [] := by
  induction l with
  | nil => intro f acc; simp [monthlyGo]
  | cons p rest ih =>
    intro f acc
    by_cases h : monthKey p.date = monthKey f.date
    · simpa [monthlyGo, h] using ih f (acc ++ [p])
    · simp [monthlyGo, h]

/-- Helper: the monthly derivation of a non-empty daily series is
non-empty. -/
theorem generateMonthlyFromDaily_ne_nil (l : List ProcessedDataPoint)
    (hl : l ≠ []) : generateMonthlyFromDaily l ≠ [] := by
  rcases l with _ | ⟨p, rest⟩
  · exact absurd rfl hl
  · exact monthlyGo_some_ne_nil rest p []

/-- Helper: when any of the three primary fetches fails, the whole bundle
comes from the fallback path. -/
theorem getMultiTimeframeData_fallback (daily weekly monthly : AVResponse)
    (yahooRaw : Option (List YahooPoint)) (nowMs : ℕ)
    (hfail : exceptOk (fetchDailyData daily) = false ∨
             exceptOk (fetchWeeklyData weekly) = false ∨
             exceptOk (fetchMonthlyData monthly) = false) :
    getMultiTimeframeData daily weekly monthly yahooRaw nowMs =
      fallbackResult yahooRaw nowMs := by
  unfold getMultiTimeframeData
  rcases h1 : fetchDailyData daily with e1 | d <;>
    rcases h2 : fetchWeeklyData weekly with e2 | w <;>
      rcases h3 : fetchMonthlyData monthly with e3 | m <;>
        simp_all [exceptOk]

/-- C3 (amended): when the primary provider fails (error message,
rate-limit note, or missing series on any of the three requests),
`getMultiTimeframeData` takes the fallback path: if the secondary
provider fails, or succeeds with zero (post-filter) points, the call
throws the final error rather than returning a bundle; if it returns a
non-empty daily series, the call succeeds with the Yahoo-derived bundle,
whose `day`, `week` and `month` fields are non-empty (the date-filtered
`threeMonth`/`sixMonth`/`year` fields may be empty). -/
theorem C3_theorem (daily weekly monthly : AVResponse)
    (yahooRaw : Option (List YahooPoint)) (nowMs : ℕ)
    (hfail : exceptOk (fetchDailyData daily) = false ∨
             exceptOk (fetchWeeklyData weekly) = false ∨
             exceptOk (fetchMonthlyData monthly) = false) :
    (exceptOk (fetchYahooFinanceData yahooRaw) = false →
      getMultiTimeframeData daily weekly monthly yahooRaw nowMs =
        .error "Unable to fetch stock data from any source. Please check the symbol and try again.") ∧
    (∀ y, fetchYahooFinanceData yahooRaw = .ok y → y.data = [] →
      getMultiTimeframeData daily weekly monthly yahooRaw nowMs =
        .error "Unable to fetch stock data from any source. Please check the symbol and try again.") ∧
    (∀ y, fetchYahooFinanceData yahooRaw = .ok y → y.data ≠ [] →
      getMultiTimeframeData daily weekly monthly yahooRaw nowMs =
        .ok (yahooBundle y nowMs,
          { lastRefreshed := y.lastRefreshed
            isStale := isDataStale y.lastRefreshed (nowMs / 86400000) }) ∧
      (yahooBundle y nowMs).day ≠ [] ∧
      (yahooBundle y nowMs).week ≠ [] ∧
      (yahooBundle y nowMs).month ≠ []) := by
  have hred := getMultiTimeframeData_fallback daily weekly monthly yahooRaw nowMs hfail
  refine ⟨fun hy => ?_, fun y hy hnil => ?_, fun y hy hne => ⟨?_, ?_, ?_, ?_⟩⟩
  · rw [hred]
    unfold fallbackResult
    rcases h : fetchYahooFinanceData yahooRaw with e | y
    · rfl
    · rw [h] at hy
      simp [exceptOk] at hy
  · rw [hred]
    unfold fallbackResult
    rw [hy]
    simp [hnil]
  · rw [hred]
    unfold fallbackResult
    rw [hy]
    have hlen : ¬ y.data.length = 0 := by
      simpa [List.length_eq_zero] using hne
    simp [hlen]
  · exact sliceLast_ne_nil y.data 30 (by omega) hne
  · exact sliceLast_ne_nil (generateWeeklyFromDaily y.data) 12 (by omega)
      (generateWeeklyFromDaily_ne_nil y.data hne)
  · exact sliceLast_ne_nil (generateMonthlyFromDaily y.data) 12 (by omega)
      (generateMonthlyFromDaily_ne_nil y.data hne)

/-- C3 witness: all three primary responses rate-limited, the fallback
returning one valid point at the epoch; the theorem's hypotheses hold and
the call succeeds with non-empty day/week/month. -/
theorem C3_witness :
    (exceptOk (fetchDailyData rateLimitedResp) = false ∨
     exceptOk (fetchWeeklyData rateLimitedResp) = false ∨
     exceptOk (fetchMonthlyData rateLimitedResp) = false) ∧
    ((exceptOk (fetchYahooFinanceData (some [epochYp])) = false →
      getMultiTimeframeData rateLimitedResp rateLimitedResp rateLimitedResp
          (some [epochYp]) day400Ms =
        .error "Unable to fetch stock data from any source. Please check the symbol and try again.") ∧
    (∀ y, fetchYahooFinanceData (some [epochYp]) = .ok y → y.data = [] →
      getMultiTimeframeData rateLimitedResp rateLimitedResp rateLimitedResp
          (some [epochYp]) day400Ms =
        .error "Unable to fetch stock data from any source. Please check the symbol and try again.") ∧
    (∀ y, fetchYahooFinanceData (some [epochYp]) = .ok y → y.data ≠ [] →
      getMultiTimeframeData rateLimitedResp rateLimitedResp rateLimitedResp
          (some [epochYp]) day400Ms =
        .ok (yahooBundle y day400Ms,
          { lastRefreshed := y.lastRefreshed
            isStale := isDataStale y.lastRefreshed (day400Ms / 86400000) }) ∧
      (yahooBundle y day400Ms).day ≠ [] ∧
      (yahooBundle y day400Ms).week ≠ [] ∧
      (yahooBundle y day400Ms).month ≠ [])) :=
  ⟨Or.inl rfl,
    C3_theorem rateLimitedResp rateLimitedResp rateLimitedResp
      (some [epochYp]) day400Ms (Or.inl rfl)⟩

/-- C3 counterexample: the claim as stated fails — a successful fallback
run can return a bundle whose date-filtered fields are all empty (the
single data point is older than every window), so the bundle is not
"all six timeframe fields populated" yet no error is raised. -/
theorem C3_counterexample :
    getMultiTimeframeData rateLimitedResp rateLimitedResp rateLimitedResp
        (some [epochYp]) day400Ms =
      .ok (yahooBundle { data := [yahooToPoint epochYp], lastRefreshed := 0 } day400Ms,
        { lastRefreshed := 0, isStale := true }) ∧
    (yahooBundle { data := [yahooToPoint epochYp], lastRefreshed := 0 } day400Ms).threeMonth = [] ∧
    (yahooBundle { data := [yahooToPoint epochYp], lastRefreshed := 0 } day400Ms).sixMonth = [] ∧
    (yahooBundle { data := [yahooToPoint epochYp], lastRefreshed := 0 } day400Ms).year = [] ∧
    (yahooBundle { data := [yahooToPoint epochYp], lastRefreshed := 0 } day400Ms).day =
      [yahooToPoint epochYp] := by
  refine ⟨rfl, ?_, ?_, ?_, ?_⟩ <;> decide

/-- C1 (amended): for every tracked trade whose recommendation has an action
and whose entryPrice is set and nonzero, `updateTradePrice tradeId price`
(no entry-price argument) recomputes `pnl` as the option's intrinsic value
minus the entry price — `max 0 (price − strike) − entry` for a call,
`max 0 (strike − price) − entry` for a put — and sets
`pnlPercentage = pnl / entry × 100` when the entry price is positive
(0 otherwise); the operation acts pointwise on the stored collection. -/
theorem C1_theorem (trades : List TrackedTrade) (tradeId : String)
    (currentPrice : ℚ) (t : TrackedTrade) (hid : t.id = tradeId)
    (act : TradeAction) (ha : t.recommendation.action = some act)
    (e : ℚ) (he : t.entryPrice = some e) (hne : e ≠ 0) :
    updateTradePrice trades tradeId currentPrice none =
      trades.map (updateTradeOne tradeId currentPrice none) ∧
    (updateTradeOne tradeId currentPrice none t).pnl =
      some ((match act.optionType with
             | OptionType.call => max 0 (currentPrice - act.strikePrice)
             | OptionType.put => max 0 (act.strikePrice - currentPrice)) - e) ∧
    (updateTradeOne tradeId currentPrice none t).pnlPercentage =
      some (if 0 < e then
              ((match act.optionType with
                | OptionType.call => max 0 (currentPrice - act.strikePrice)
                | OptionType.put => max 0 (act.strikePrice - currentPrice)) - e)
                / e * 100
            else 0) := by
  refine ⟨rfl, ?_, ?_⟩
  all_goals
    simp only [updateTradeOne, hid, if_pos, he, ha, hne, ite_true]
    cases act.optionType <;> simp [hne]

/-- C1 witness: the two worked examples of the claim.  A call with strike
100, entry 2.00, current price 105 gets `pnl = 3` and
`pnlPercentage = 150`; a put with the same figures gets `pnl = -2` and
`pnlPercentage = -100`. -/
theorem C1_witness :
    (exCallTrade.id = "AAPL-1000" ∧ exCallTrade.recommendation.action.isSome = true ∧
      exCallTrade.entryPrice = some 2 ∧ (2 : ℚ) ≠ 0) ∧
    (updateTradeOne "AAPL-1000" 105 none exCallTrade).pnl = some 3 ∧
    (updateTradeOne "AAPL-1000" 105 none exCallTrade).pnlPercentage = some 150 ∧
    (updateTradeOne "MSFT-1000" 105 none exPutTrade).pnl = some (-2) ∧
    (updateTradeOne "MSFT-1000" 105 none exPutTrade).pnlPercentage = some (-100) := by
  have hc := C1_theorem [exCallTrade] "AAPL-1000" 105 exCallTrade rfl
    (callRec.action.get (by decide)) rfl 2 rfl (by norm_num)
  have hp := C1_theorem [exPutTrade] "MSFT-1000" 105 exPutTrade rfl
    (putRec.action.get (by decide)) rfl 2 rfl (by norm_num)
  refine ⟨⟨rfl, rfl, rfl, by norm_num⟩, ?_, ?_, ?_, ?_⟩
  · rw [hc.2.1]; norm_num [callRec]
  · rw [hc.2.2]; norm_num [callRec]
  · rw [hp.2.1]; norm_num [putRec]
  · rw [hp.2.2]; norm_num [putRec]

/-- C1 counterexample: for a trade whose entryPrice is set to 0 (with a call
action present), the claim predicts `pnl = max 0 (105 − 100) − 0 = 5` and
`pnlPercentage = 0`; the code skips the recomputation entirely (the guard
`if (updatedTrade.entryPrice && …)` treats 0 as falsy), leaving both
fields unset. -/
theorem C1_counterexample :
    (updateTradePrice [exZeroEntryTrade] "NVDA-1000" 105 none).map
      (fun t => (t.pnl, t.pnlPercentage)) = [(none, none)] ∧
    exZeroEntryTrade.entryPrice = some 0 ∧
    exZeroEntryTrade.recommendation.action.isSome = true := by
  refine ⟨?_, rfl, rfl⟩
  rfl

/-- C6: the code is wrong and the claim right — `closeTrade` on an
already-closed trade overwrites `closedAt` with the new clock value.
Evaluated at the failing input: a trade already closed at time 5000,
re-closed at time 7000, ends with `closedAt = some 7000`. -/
theorem C6_theorem :
    exClosedTrade.status = TradeStatus.closed ∧
    exClosedTrade.closedAt = some 5000 ∧
    (closeTrade [exClosedTrade] "TSLA-1000" 7000).map TrackedTrade.closedAt =
      [some 7000] := by
  refine ⟨?_, ?_, ?_⟩ <;> decide

/-- C7 (amended): `confirmTrade` appends exactly one new trade whose id is
`symbol ++ "-" ++ timestamp` and returns that id; the new trade's status is
`confirmed` exactly when the entry price is given and nonzero (an entry
price of 0 behaves like an omitted one and yields `pending`); and the
returned id is absent from the prior collection provided no stored trade
already carries the same symbol-and-timestamp id. -/
theorem C7_theorem (trades : List TrackedTrade) (symbol : String)
    (rec : Recommendation) (entryPrice : Option ℚ) (now : ℕ) :
    (confirmTrade trades symbol rec entryPrice now).2 =
      trades ++
        [{ id := symbol ++ "-" ++ toString now
           symbol := symbol
           recommendation := rec
           confirmedAt := now
           entryPrice := entryPrice
           currentPrice := none
           status := if numTruthy entryPrice then .confirmed else .pending
           pnl := none
           pnlPercentage := none
           closedAt := none }] ∧
    (confirmTrade trades symbol rec entryPrice now).1 =
      symbol ++ "-" ++ toString now ∧
    ((∀ t ∈ trades, t.id ≠ symbol ++ "-" ++ toString now) →
      (confirmTrade trades symbol rec entryPrice now).1 ∉
        trades.map TrackedTrade.id) := by
  refine ⟨rfl, rfl, fun h hmem => ?_⟩
  rw [List.mem_map] at hmem
  obtain ⟨t, ht, hid⟩ := hmem
  exact h t ht hid

/-- C7 witness: with one stored trade of a different id, confirming an AAPL
trade with entry price 2 at time 1000 appends a confirmed trade with the
fresh id `AAPL-1000`. -/
theorem C7_witness :
    (confirmTrade [exPutTrade] "AAPL" callRec (some 2) 1000).2 =
      [exPutTrade] ++
        [{ id := "AAPL" ++ "-" ++ toString 1000
           symbol := "AAPL"
           recommendation := callRec
           confirmedAt := 1000
           entryPrice := some 2
           currentPrice := none
           status := if numTruthy (some 2) then .confirmed else .pending
           pnl := none
           pnlPercentage := none
           closedAt := none }] ∧
    (confirmTrade [exPutTrade] "AAPL" callRec (some 2) 1000).1 =
      "AAPL" ++ "-" ++ toString 1000 ∧
    ((∀ t ∈ [exPutTrade], t.id ≠ "AAPL" ++ "-" ++ toString 1000) ∧
      (confirmTrade [exPutTrade] "AAPL" callRec (some 2) 1000).1 ∉
        [exPutTrade].map TrackedTrade.id) := by
  have h := C7_theorem [exPutTrade] "AAPL" callRec (some 2) 1000
  exact ⟨h.1, h.2.1, by decide, h.2.2 (by decide)⟩

/-- C7 counterexample: the claim as stated fails twice on the code.
With an entry price of 0 the created trade has status `pending`, not
`confirmed`; and when a stored trade already has id `AAPL-1000`
(same symbol, same millisecond), the id returned by a second
`confirmTrade` collides with it, so it is not unique. -/
theorem C7_counterexample :
    (confirmTrade [] "AAPL" callRec (some 0) 1000).2.map TrackedTrade.status =
      [TradeStatus.pending] ∧
    (confirmTrade ((confirmTrade [] "AAPL" callRec none 1000).2)
        "AAPL" callRec none 1000).1 ∈
      ((confirmTrade [] "AAPL" callRec none 1000).2).map TrackedTrade.id := by
  constructor
  · rfl
  · simp [confirmTrade]

/-- C8: `updateTradePrice` and `closeTrade` are frame-preserving: they map
the collection pointwise, leave every trade whose id differs from the
target entirely unchanged, and when no trade has the target id the whole
collection is returned unchanged (both operations are total — there is no
error path). -/
theorem C8_theorem (trades : List TrackedTrade) (tradeId : String)
    (currentPrice : ℚ) (entryPrice : Option ℚ) (now : ℕ) :
    updateTradePrice trades tradeId currentPrice entryPrice =
      trades.map (updateTradeOne tradeId currentPrice entryPrice) ∧
    closeTrade trades tradeId now = trades.map (closeTradeOne tradeId now) ∧
    (∀ t : TrackedTrade, t.id ≠ tradeId →
      updateTradeOne tradeId currentPrice entryPrice t = t ∧
      closeTradeOne tradeId now t = t) ∧
    ((∀ t ∈ trades, t.id ≠ tradeId) →
      updateTradePrice trades tradeId currentPrice entryPrice = trades ∧
      closeTrade trades tradeId now = trades) := by
  refine ⟨rfl, rfl, fun t ht =>
      ⟨updateTradeOne_id_ne _ _ _ _ ht, closeTradeOne_id_ne _ _ _ ht⟩,
    fun h => ⟨?_, ?_⟩⟩
  · calc updateTradePrice trades tradeId currentPrice entryPrice
        = trades.map id := by
          exact List.map_congr_left fun t ht =>
            updateTradeOne_id_ne _ _ _ _ (h t ht)
      _ = trades := List.map_id trades
  · calc closeTrade trades tradeId now = trades.map id := by
          exact List.map_congr_left fun t ht =>
            closeTradeOne_id_ne _ _ _ (h t ht)
      _ = trades := List.map_id trades

/-- C8 witness: with a single stored trade whose id is `AAPL-1000`,
updating or closing the absent id `ZZZ-1` leaves the collection
unchanged. -/
theorem C8_witness :
    updateTradePrice [exCallTrade] "ZZZ-1" 105 none =
      [exCallTrade].map (updateTradeOne "ZZZ-1" 105 none) ∧
    closeTrade [exCallTrade] "ZZZ-1" 7000 =
      [exCallTrade].map (closeTradeOne "ZZZ-1" 7000) ∧
    exCallTrade.id ≠ "ZZZ-1" ∧
    updateTradePrice [exCallTrade] "ZZZ-1" 105 none = [exCallTrade] ∧
    closeTrade [exCallTrade] "ZZZ-1" 7000 = [exCallTrade] := by
  have h := C8_theorem [exCallTrade] "ZZZ-1" 105 none 7000
  have hm : ∀ t ∈ [exCallTrade], t.id ≠ "ZZZ-1" := by decide
  exact ⟨h.1, h.2.1, by decide, (h.2.2.2 hm).1, (h.2.2.2 hm).2⟩

end StockAnalyzer
